import Mathlib

/-!
Verification of the bulk-unzip batch-processing engine.

The Rust sources modelled here are src/src/main.rs, src/src/metadata_stripper.rs,
src/src-tauri/src/lib.rs and src/src-tauri/src/metadata_stripper.rs.  Filesystem
paths are modelled as component lists, the filesystem itself as read-only oracle
environments, and every mutating or archive-opening operation performed by a
transform is recorded in an explicit operation trace, so that purity claims
(dry run, skip-existing) become statements about that trace.  A Rust panic
(the division by zero reachable through a zero worker count) is modelled as
the Option value none.
-/

namespace BulkUnzip

/-! ### Paths

A path is a list of components; joining is list append.  The filename helpers
mirror the Rust std Path methods used by the sources: file_name, file_stem
and extension. -/

abbrev Path := List String

/-- Last path component, the Rust Path.file_name (discovered items always
have one, so the unwrap in the sources cannot fail). -/
def path_file_name (p : Path) : String := p.getLastD ""

/-- Splitting a character list at every occurrence of a separator character,
the semantics of Rust str.split with a one-character pattern. -/
def split_on_char (c : Char) : List Char → List (List Char)
  | [] => [[]]
  | x :: xs =>
    if x = c then [] :: split_on_char c xs
    else
      match split_on_char c xs with
      | [] => [[x]]
      | p :: ps => (x :: p) :: ps

/-- The dot-separated pieces of a filename. -/
def dot_parts (name : String) : List String :=
  (split_on_char '.' name.data).map (fun cs => String.mk cs)

/-- Rust Path.file_stem on a file name: the whole name when there is no dot
or when the name is a dotfile with a single leading dot, otherwise everything
before the final dot. -/
def file_stem (name : String) : String :=
  match dot_parts name with
  | [] => name
  | [_] => name
  | ["", _] => name
  | ps => String.intercalate "." ps.dropLast

/-- Rust Path.extension on a file name: the piece after the final dot, none
when there is no dot or for a dotfile with a single leading dot. -/
def extension (name : String) : Option String :=
  match dot_parts name with
  | [] => none
  | [_] => none
  | ["", _] => none
  | ps => some (ps.getLastD "")

/-- The check path.extension().map_or(false, |ext| ext == e) from the
discovery functions. -/
def ext_is (p : Path) (e : String) : Bool :=
  match extension (path_file_name p) with
  | some x => x == e
  | none => false

/-! ### Partitioner

Both binaries split the discovered catalog with
catalog.chunks((catalog.len() + workers - 1) / workers)
(src/src/main.rs lines 187-189, src/src/metadata_stripper.rs lines 212-214,
src/src-tauri/src/lib.rs lines 152-154).  Rust integer division by zero
panics, which the model records as none. -/

/-- The chunk size (len + workers - 1) / workers; none models the Rust
panic when workers = 0. -/
def chunk_size (len workers : Nat) : Option Nat :=
  if workers = 0 then none else some ((len + workers - 1) / workers)

/-- Rust slice.chunks, driven by explicit fuel so that the definition is
structural.  The fuel is instantiated with the list length; with a positive
chunk size every step consumes at least one element, so the fuel is never
exhausted on the paths the program reaches. -/
def chunksOfFuel {α : Type} (k : Nat) : Nat → List α → List (List α)
  | _, [] => []
  | 0, x :: xs => [x :: xs]
  | fuel + 1, x :: xs => (x :: xs).take k :: chunksOfFuel k fuel ((x :: xs).drop k)

/-- Rust slice.chunks(k): contiguous pieces of size k, the last possibly
smaller. -/
def chunksOf {α : Type} (k : Nat) (xs : List α) : List (List α) :=
  chunksOfFuel k xs.length xs

/-- The partitioning step of both engines: chunk size from the ceiling
division, then slice.chunks. -/
def make_chunks {α : Type} (xs : List α) (workers : Nat) : Option (List (List α)) :=
  match chunk_size xs.length workers with
  | none => none
  | some k => some (chunksOf k xs)

/-! ### Discovery

find_zip_files (src/src/main.rs lines 79-99, src/src-tauri/src/lib.rs lines
61-81) walks the tree and keeps files with the zip extension.  The walk is
modelled as the list of results the WalkDir iterator yields: each element is
either a walk error or an entry.  The source filters the iterator with
filter_map(|e| e.ok()), so every walk error is dropped; the only fallible
step that propagates is fs::metadata on a matched file, modelled by the
meta oracle. -/

structure WalkEntry where
  path : Path
  is_file : Bool

/-- One discovered archive: path and size at discovery time. -/
structure ZipFile where
  path : Path
  size : Nat

/-- The acceptance predicate of find_zip_files:
path.is_file() && path.extension() == "zip". -/
def is_zip_entry (e : WalkEntry) : Bool :=
  e.is_file && ext_is e.path "zip"

/-- find_zip_files: walk results are filtered with filter_map(|e| e.ok()),
matching files are kept, and a failing fs::metadata on a matched file aborts
the whole discovery with that error. -/
def find_zip_files :
    List (Except String WalkEntry) → (Path → Except String Nat) →
      Except String (List ZipFile)
  | [], _ => Except.ok []
  | Except.error _ :: rest, meta => find_zip_files rest meta
  | Except.ok e :: rest, meta =>
    if is_zip_entry e then
      match meta e.path with
      | Except.error msg => Except.error msg
      | Except.ok n =>
        match find_zip_files rest meta with
        | Except.error msg => Except.error msg
        | Except.ok zs => Except.ok (ZipFile.mk e.path n :: zs)
    else find_zip_files rest meta

/-- The ok entries of a walk that pass the zip acceptance predicate, in
walk order. -/
def matching_entries : List (Except String WalkEntry) → List WalkEntry
  | [] => []
  | Except.error _ :: rest => matching_entries rest
  | Except.ok e :: rest =>
    if is_zip_entry e then e :: matching_entries rest else matching_entries rest

/-- Size recorded for a matched file whose metadata read succeeded. -/
def meta_size (r : Except String Nat) : Nat :=
  match r with
  | Except.ok n => n
  | Except.error _ => 0

/-! ### Tags

The id3 capability is modelled at the interface the sources use: the six
first-class accessors and an opaque custom-frame store keyed by exact frame
name (spec section 6).  add_frame prepends, and lookup takes the most recent
binding, matching the replace-on-write behaviour of the library. -/

structure Tag where
  title : Option String
  artist : Option String
  album : Option String
  year : Option Int
  track : Option Nat
  genre : Option String
  frames : List (String × String)

def Tag.new : Tag := ⟨none, none, none, none, none, none, []⟩

def Tag.set_title (t : Tag) (v : String) : Tag := { t with title := some v }

def Tag.set_artist (t : Tag) (v : String) : Tag := { t with artist := some v }

def Tag.set_album (t : Tag) (v : String) : Tag := { t with album := some v }

def Tag.set_year (t : Tag) (v : Int) : Tag := { t with year := some v }

def Tag.set_track (t : Tag) (v : Nat) : Tag := { t with track := some v }

def Tag.set_genre (t : Tag) (v : String) : Tag := { t with genre := some v }

/-- Exact-key lookup in the custom frame store. -/
def frames_lookup (k : String) : List (String × String) → Option String
  | [] => none
  | (k2, v) :: rest => if k = k2 then some v else frames_lookup k rest

/-- tag.get(name): the custom frame stored under exactly that name. -/
def Tag.get (t : Tag) (k : String) : Option String := frames_lookup k t.frames

/-- tag.add_frame(frame): store a frame under its own name. -/
def Tag.add_frame (t : Tag) (k v : String) : Tag :=
  { t with frames := (k, v) :: t.frames }

/-- One discovered audio file (src/src/metadata_stripper.rs lines 42-47). -/
structure Mp3File where
  path : Path
  size : Nat
  has_metadata : Bool

/-! ### Metadata-strip transform

strip_metadata_file (src/src/metadata_stripper.rs lines 75-167,
src/src-tauri/src/metadata_stripper.rs lines 52-142).  The filesystem is an
oracle environment; the returned trace lists every mutating operation the
call performs, in order. -/

/-- Trace entries: every directory creation, file copy, tag write, archive
open and extracted-file write a transform performs. -/
inductive FsOp where
  | create_dir : Path → FsOp
  | copy_file : Path → Path → FsOp
  | write_tag : Path → Tag → FsOp
  | open_archive : Path → FsOp
  | write_file : Path → FsOp

structure StripEnv where
  create_dir_ok : Path → Bool
  copy_ok : Path → Path → Bool
  read_tag : Path → Option Tag
  write_tag_ok : Path → Bool

/-- The per-field copy step of the keep-fields loop body: the six first-class
names are matched on the trimmed field, any other name falls through to an
exact custom-frame lookup of the untrimmed field, and absent values are
silently skipped. -/
def keep_field (tag new_tag : Tag) (field : String) : Tag :=
  if field.trim = "title" then
    match tag.title with
    | some v => new_tag.set_title v
    | none => new_tag
  else if field.trim = "artist" then
    match tag.artist with
    | some v => new_tag.set_artist v
    | none => new_tag
  else if field.trim = "album" then
    match tag.album with
    | some v => new_tag.set_album v
    | none => new_tag
  else if field.trim = "year" then
    match tag.year with
    | some v => new_tag.set_year v
    | none => new_tag
  else if field.trim = "track" then
    match tag.track with
    | some v => new_tag.set_track v
    | none => new_tag
  else if field.trim = "genre" then
    match tag.genre with
    | some v => new_tag.set_genre v
    | none => new_tag
  else
    match tag.get field with
    | some v => new_tag.add_frame field v
    | none => new_tag

/-- The six first-class field names of the keep-fields match. -/
def first_class_fields : List String :=
  ["title", "artist", "album", "year", "track", "genre"]

/-- The new tag built by the keep-fields branch: split the list on commas
and fold the per-field copy step over an empty tag. -/
def build_kept_tag (tag : Tag) (fields_to_keep : String) : Tag :=
  (fields_to_keep.splitOn ",").foldl (keep_field tag) Tag.new

/-- Output path of the strip transform: output root joined with the file
name when an output root is configured, the item path itself otherwise. -/
def strip_output_path (p : Path) (output_dir : Option Path) : Path :=
  match output_dir with
  | some d => d ++ [path_file_name p]
  | none => p

/-- The tag-processing phase of strip_metadata_file: read the tag at the
output path (an unreadable tag is a no-op success), then either write an
empty tag (remove_all), write the kept tag (keep_fields), or do nothing. -/
def process_tag (env : StripEnv) (output_path : Path) (keep_fields : Option String)
    (remove_all : Bool) : Except String Unit × List FsOp :=
  match env.read_tag output_path with
  | none => (Except.ok (), [])
  | some tag =>
    if remove_all then
      (if env.write_tag_ok output_path then Except.ok ()
       else Except.error "Failed to write stripped metadata",
       [FsOp.write_tag output_path Tag.new])
    else
      match keep_fields with
      | some fields_to_keep =>
        (if env.write_tag_ok output_path then Except.ok ()
         else Except.error "Failed to write filtered metadata",
         [FsOp.write_tag output_path (build_kept_tag tag fields_to_keep)])
      | none => (Except.ok (), [])

/-- strip_metadata_file: resolve the output path; under dry_run do nothing
and succeed; otherwise create the output directory when one is configured,
copy the file when the output path differs from the source, and process the
tag at the output path. -/
def strip_metadata_file (env : StripEnv) (mp3 : Mp3File) (output_dir : Option Path)
    (keep_fields : Option String) (remove_all dry_run : Bool) :
    Except String Unit × List FsOp :=
  let output_path := strip_output_path mp3.path output_dir
  if dry_run then (Except.ok (), [])
  else
    match output_dir with
    | some d =>
      if env.create_dir_ok d then
        if output_path = mp3.path then
          let r := process_tag env output_path keep_fields remove_all
          (r.fst, FsOp.create_dir d :: r.snd)
        else
          if env.copy_ok mp3.path output_path then
            let r := process_tag env output_path keep_fields remove_all
            (r.fst, FsOp.create_dir d :: FsOp.copy_file mp3.path output_path :: r.snd)
          else
            (Except.error "Failed to copy file",
             [FsOp.create_dir d, FsOp.copy_file mp3.path output_path])
      else (Except.error "Failed to create directory", [FsOp.create_dir d])
    | none => process_tag env mp3.path keep_fields remove_all

/-! ### Extraction transform

extract_zip_file (src/src/main.rs lines 101-160, src/src-tauri/src/lib.rs
lines 83-135).  The archive capability is an oracle returning the entry list
(open and parse failures merged into one error), per-entry reads and writes
are boolean oracles, and the trace records directory creations, the archive
open and every extracted file write. -/

/-- One archive entry: its name as path components, and whether the name
ends in a path separator (a directory marker). -/
structure ZipEntry where
  name : List String
  is_dir : Bool

structure ExtractEnv where
  dir_exists : Path → Bool
  create_dir_ok : Path → Bool
  open_archive : Path → Except String (List ZipEntry)
  entry_ok : Path → Nat → Bool
  write_file_ok : Path → Bool

/-- Target directory of one archive: output root joined with the archive
filename stem. -/
def extract_target (output_dir : Path) (zip_path : Path) : Path :=
  output_dir ++ [file_stem (path_file_name zip_path)]

/-- The entry loop of extract_zip_file: read each entry by index, create the
directory for directory markers, otherwise create the missing parent
directory and write the entry bytes; the first failure aborts the remaining
entries of this item. -/
def extract_entries (env : ExtractEnv) (zip_path extract_dir : Path) :
    Nat → List ZipEntry → Except String Unit × List FsOp
  | _, [] => (Except.ok (), [])
  | i, e :: rest =>
    if env.entry_ok zip_path i then
      if e.is_dir then
        if env.create_dir_ok (extract_dir ++ e.name) then
          let r := extract_entries env zip_path extract_dir (i + 1) rest
          (r.fst, FsOp.create_dir (extract_dir ++ e.name) :: r.snd)
        else
          (Except.error "Failed to create directory",
           [FsOp.create_dir (extract_dir ++ e.name)])
      else
        if env.dir_exists ((extract_dir ++ e.name).dropLast) then
          if env.write_file_ok (extract_dir ++ e.name) then
            let r := extract_entries env zip_path extract_dir (i + 1) rest
            (r.fst, FsOp.write_file (extract_dir ++ e.name) :: r.snd)
          else
            (Except.error "Failed to create or write file",
             [FsOp.write_file (extract_dir ++ e.name)])
        else
          if env.create_dir_ok ((extract_dir ++ e.name).dropLast) then
            if env.write_file_ok (extract_dir ++ e.name) then
              let r := extract_entries env zip_path extract_dir (i + 1) rest
              (r.fst, FsOp.create_dir ((extract_dir ++ e.name).dropLast) ::
                FsOp.write_file (extract_dir ++ e.name) :: r.snd)
            else
              (Except.error "Failed to create or write file",
               [FsOp.create_dir ((extract_dir ++ e.name).dropLast),
                FsOp.write_file (extract_dir ++ e.name)])
          else
            (Except.error "Failed to create parent directory",
             [FsOp.create_dir ((extract_dir ++ e.name).dropLast)])
    else (Except.error "Failed to read file at index", [])

/-- extract_zip_file: the skip-existing shortcut returns success with an
empty trace; otherwise the target directory is created first, then the
archive is opened and its entries extracted. -/
def extract_zip_file (env : ExtractEnv) (zip : ZipFile) (output_dir : Path)
    (skip_existing : Bool) : Except String Unit × List FsOp :=
  let extract_dir := extract_target output_dir zip.path
  if skip_existing && env.dir_exists extract_dir then (Except.ok (), [])
  else
    if env.create_dir_ok extract_dir then
      match env.open_archive zip.path with
      | Except.error msg =>
        (Except.error msg, [FsOp.create_dir extract_dir, FsOp.open_archive zip.path])
      | Except.ok entries =>
        let r := extract_entries env zip.path extract_dir 0 entries
        (r.fst, FsOp.create_dir extract_dir :: FsOp.open_archive zip.path :: r.snd)
    else (Except.error "Failed to create directory", [FsOp.create_dir extract_dir])

/-! ### Batch engine

bulk_unzip (src/src-tauri/src/lib.rs lines 137-179, src/src/main.rs lines
162-219): after discovery, an empty catalog returns early; the output
directory is created (a run-level error when that fails); the catalog is
chunked; each chunk worker processes its items in order, and the error of
one item is caught and recorded as that item's outcome; join_all waits for
every worker and the per-chunk outcome lists are concatenated in chunk
order.  The outer Option models the division-by-zero panic of a zero worker
count. -/

/-- Per-item result recorded by the engine. -/
inductive Outcome where
  | success : Path → Outcome
  | failure : Path → String → Outcome

/-- The catch around one item inside a chunk worker: the transform error
becomes that item's failure outcome instead of propagating. -/
def item_outcome (env : ExtractEnv) (output : Path) (skip_existing : Bool)
    (z : ZipFile) : Outcome :=
  match (extract_zip_file env z output skip_existing).fst with
  | Except.ok _ => Outcome.success z.path
  | Except.error msg => Outcome.failure z.path msg

/-- The engine run of bulk_unzip after discovery. -/
def bulk_unzip (env : ExtractEnv) (zip_files : List ZipFile) (output : Path)
    (workers : Nat) (skip_existing : Bool) :
    Option (Except String (List Outcome)) :=
  if zip_files.isEmpty then some (Except.ok [])
  else
    if env.create_dir_ok output then
      match make_chunks zip_files workers with
      | none => none
      | some chunks =>
        some (Except.ok ((chunks.map (fun chunk =>
          chunk.map (item_outcome env output skip_existing))).flatten))
    else some (Except.error "Failed to create output directory")

/-! ### Concrete fixtures used by the witnesses -/

def demo_env : ExtractEnv :=
  ⟨fun _ => false,
   fun _ => true,
   fun p => if p = ["in", "bad.zip"] then Except.error "Failed to read zip archive"
            else Except.ok [],
   fun _ _ => true,
   fun _ => true⟩

def demo_catalog : List ZipFile :=
  [ZipFile.mk ["in", "a.zip"] 10,
   ZipFile.mk ["in", "bad.zip"] 10,
   ZipFile.mk ["in", "b.zip"] 10]

def demo_walk : List (Except String WalkEntry) :=
  [Except.error "Permission denied",
   Except.ok (WalkEntry.mk ["root", "a.zip"] true),
   Except.ok (WalkEntry.mk ["root", "notes.txt"] true),
   Except.ok (WalkEntry.mk ["root", "sub"] false)]

def all_exists_env : ExtractEnv :=
  ⟨fun _ => true, fun _ => true, fun _ => Except.ok [], fun _ _ => true, fun _ => true⟩

def bad_archive_env : ExtractEnv :=
  ⟨fun _ => false, fun _ => true, fun _ => Except.error "Failed to read zip archive",
   fun _ _ => true, fun _ => true⟩

def rerun_env : ExtractEnv :=
  ⟨fun _ => true, fun _ => true, fun _ => Except.error "Failed to read zip archive",
   fun _ _ => true, fun _ => true⟩

/-! ## Partitioner lemmas -/

theorem chunksOfFuel_flatten {α : Type} (k : Nat) (hk : k ≠ 0) :
    ∀ (fuel : Nat) (xs : List α), xs.length ≤ fuel →
      (chunksOfFuel k fuel xs).flatten = xs := by
  intro fuel
  induction fuel with
  | zero =>
    intro xs h
    cases xs with
    | nil => rfl
    | cons x l => simp at h
  | succ n ih =>
    intro xs h
    cases xs with
    | nil => rfl
    | cons x l =>
      have hlen : l.length + 1 ≤ n + 1 := by simpa using h
      show (x :: l).take k ++ (chunksOfFuel k n ((x :: l).drop k)).flatten = x :: l
      rw [ih ((x :: l).drop k) (by simp; omega)]
      exact List.take_append_drop k (x :: l)

theorem chunksOfFuel_count {α : Type} (k : Nat) (hk : k ≠ 0) :
    ∀ (fuel : Nat) (xs : List α) (W : Nat), xs.length ≤ fuel → xs.length ≤ k * W →
      (chunksOfFuel k fuel xs).length ≤ W := by
  intro fuel
  induction fuel with
  | zero =>
    intro xs W h _
    cases xs with
    | nil => simp [chunksOfFuel]
    | cons x l => simp at h
  | succ n ih =>
    intro xs W h hkw
    cases xs with
    | nil => simp [chunksOfFuel]
    | cons x l =>
      cases W with
      | zero => simp at hkw
      | succ m =>
        show ((x :: l).take k :: chunksOfFuel k n ((x :: l).drop k)).length ≤ m + 1
        rw [List.length_cons]
        have hk1 : 1 ≤ k := Nat.one_le_iff_ne_zero.mpr hk
        have hdrop : ((x :: l).drop k).length ≤ n := by
          simp at h ⊢; omega
        have hdrop2 : ((x :: l).drop k).length ≤ k * m := by
          have hms : k * (m + 1) = k * m + k := Nat.mul_succ k m
          simp at hkw ⊢
          omega
        exact Nat.succ_le_succ (ih ((x :: l).drop k) m hdrop hdrop2)

theorem chunksOfFuel_sizes {α : Type} (k : Nat) (hk : k ≠ 0) :
    ∀ (fuel : Nat) (xs : List α), xs.length ≤ fuel →
      ∀ c ∈ chunksOfFuel k fuel xs, c ≠ [] ∧ c.length ≤ k := by
  intro fuel
  induction fuel with
  | zero =>
    intro xs h
    cases xs with
    | nil => intro c hc; exact absurd hc (List.not_mem_nil c)
    | cons x l => simp at h
  | succ n ih =>
    intro xs h c hc
    cases xs with
    | nil => exact absurd hc (List.not_mem_nil c)
    | cons x l =>
      have hstep : chunksOfFuel k (n + 1) (x :: l) =
          (x :: l).take k :: chunksOfFuel k n ((x :: l).drop k) := rfl
      rw [hstep, List.mem_cons] at hc
      cases hc with
      | inl hhead =>
        subst hhead
        constructor
        · cases k with
          | zero => exact absurd rfl hk
          | succ j => simp
        · exact List.length_take_le _ _
      | inr htail =>
        exact ih ((x :: l).drop k) (by simp at h ⊢; omega) c htail

theorem flatten_map_map {α β : Type} (f : α → β) :
    ∀ (L : List (List α)), (L.map (fun c => c.map f)).flatten = L.flatten.map f := by
  intro L
  induction L with
  | nil => rfl
  | cons c cs ih =>
    simp only [List.map_cons, List.flatten_cons, List.map_append, ih]

theorem chunk_size_pos (len workers : Nat) (hw : 1 ≤ workers) (hm : 1 ≤ len) :
    ∃ k, chunk_size len workers = some k ∧ 1 ≤ k ∧ len ≤ workers * k := by
  have hw0 : workers ≠ 0 := by omega
  refine ⟨(len + workers - 1) / workers, by simp [chunk_size, hw0], ?_, ?_⟩
  · rw [Nat.le_div_iff_mul_le (by omega : 0 < workers)]
    omega
  · have hdm := Nat.div_add_mod (len + workers - 1) workers
    have hmod : (len + workers - 1) % workers < workers := Nat.mod_lt _ (by omega)
    omega

/-! ## Claim theorems -/

/-- C2: for every catalog of size at least 1 and worker count at least 1,
the chunking yields contiguous, order-preserving chunks whose concatenation
is exactly the catalog, with chunk count at most min(workers, catalog size),
every chunk nonempty and no chunk larger than the ceiling chunk size. -/
theorem partitioner_exact_cover {α : Type} (xs : List α) (w : Nat)
    (hw : 1 ≤ w) (hm : 1 ≤ xs.length) :
    ∃ cs, make_chunks xs w = some cs ∧ cs.flatten = xs ∧
      cs.length ≤ min w xs.length ∧
      ∀ c ∈ cs, c ≠ [] ∧ c.length ≤ (xs.length + w - 1) / w := by
  obtain ⟨k, hcs, hk1, hkw⟩ := chunk_size_pos xs.length w hw hm
  have hk0 : k ≠ 0 := by omega
  have hkval : k = (xs.length + w - 1) / w := by
    simp [chunk_size, (by omega : w ≠ 0)] at hcs
    omega
  refine ⟨chunksOf k xs, ?_, ?_, ?_, ?_⟩
  · simp [make_chunks, hcs]
  · exact chunksOfFuel_flatten k hk0 xs.length xs (le_refl _)
  · have h1 : (chunksOf k xs).length ≤ w :=
      chunksOfFuel_count k hk0 xs.length xs w (le_refl _)
        (by rw [Nat.mul_comm] at hkw; exact hkw)
    have h2 : (chunksOf k xs).length ≤ xs.length :=
      chunksOfFuel_count k hk0 xs.length xs xs.length (le_refl _)
        (by calc xs.length = 1 * xs.length := (Nat.one_mul _).symm
              _ ≤ k * xs.length := Nat.mul_le_mul_right _ hk1)
    exact le_min h1 h2
  · intro c hc
    rw [← hkval]
    exact chunksOfFuel_sizes k hk0 xs.length xs (le_refl _) c hc

/-- C2 witness: a concrete catalog of five items split across two workers. -/
theorem partitioner_exact_cover_witness :
    ∃ cs, make_chunks ["a", "b", "c", "d", "e"] 2 = some cs ∧
      cs.flatten = ["a", "b", "c", "d", "e"] ∧
      cs.length ≤ min 2 (["a", "b", "c", "d", "e"] : List String).length ∧
      ∀ c ∈ cs, c ≠ [] ∧
        c.length ≤ ((["a", "b", "c", "d", "e"] : List String).length + 2 - 1) / 2 :=
  partitioner_exact_cover ["a", "b", "c", "d", "e"] 2 (by decide) (by decide)

/-- C3: the claim says a requested worker count of zero is normalized to
max(1, catalog size) before the chunk size is computed, so the division
never sees a zero divisor.  The code performs the ceiling division
(len + workers - 1) / workers directly, and with workers = 0 and one
discovered archive this is a division by zero, a Rust panic, recorded here
as none. -/
theorem worker_count_zero_division :
    chunk_size 1 0 = none ∧ make_chunks ["a.zip"] 0 = none := by
  constructor
  · rfl
  · rfl

/-- C1: for every catalog, worker count at least 1 and extraction
environment, the engine run returns one outcome per catalog item in catalog
order; the outcome of each item is determined solely by that item's own
transform result, so a transform failure (a corrupted archive, say) is
recorded as that item's failure outcome and neither aborts nor alters any
other item in the same or another chunk; the run waits for every chunk and
returns the full list, never a run-level error, once the output directory
was created. -/
theorem per_item_failure_isolation (env : ExtractEnv) (zs : List ZipFile)
    (out : Path) (w : Nat) (se : Bool) (hw : 1 ≤ w)
    (hdir : env.create_dir_ok out = true) :
    bulk_unzip env zs out w se =
      some (Except.ok (zs.map (item_outcome env out se))) := by
  cases zs with
  | nil => rfl
  | cons z rest =>
    have hlen : 1 ≤ (z :: rest).length := by simp
    obtain ⟨k, hck, hk1, hkw⟩ := chunk_size_pos (z :: rest).length w hw hlen
    have hempty : (z :: rest).isEmpty = false := rfl
    simp only [bulk_unzip, hempty, Bool.false_eq_true, if_false, hdir, if_true,
      make_chunks, hck]
    unfold chunksOf
    rw [flatten_map_map,
      chunksOfFuel_flatten k (by omega) (z :: rest).length (z :: rest) (le_refl _)]

/-- C1 witness: a catalog of three archives split across two workers,
with the middle archive corrupted; the run returns success-failure-success
with the failure isolated to the corrupted item. -/
theorem per_item_failure_isolation_witness :
    bulk_unzip demo_env demo_catalog ["out"] 2 false =
      some (Except.ok [Outcome.success ["in", "a.zip"],
        Outcome.failure ["in", "bad.zip"] "Failed to read zip archive",
        Outcome.success ["in", "b.zip"]]) := by
  have h := per_item_failure_isolation demo_env demo_catalog ["out"] 2 false
    (by decide) rfl
  rw [h]
  rfl

/-- C4 counterexample: walking a root that does not exist yields a single
error item from the walker; the claim requires discovery to return an error,
but the code drops every walk error through filter_map(|e| e.ok()) and
returns an empty ok catalog. -/
theorem discovery_root_error_cex :
    find_zip_files [Except.error "No such file or directory"]
      (fun _ => Except.ok 0) = Except.ok [] := rfl

/-- C4 amended: discovery never returns an error for a walk failure — every
walk error, including a root that cannot be walked at all, is silently
dropped; whenever the size metadata of every matched file is readable,
discovery succeeds and returns exactly the matched files (so a tree with no
matches yields an empty catalog, not an error).  The only error discovery
can return is a metadata-read failure on a matched file. -/
theorem discovery_error_semantics (walk : List (Except String WalkEntry))
    (meta : Path → Except String Nat)
    (hmeta : ∀ e ∈ matching_entries walk, (meta e.path).isOk = true) :
    find_zip_files walk meta =
      Except.ok ((matching_entries walk).map
        (fun e => ZipFile.mk e.path (meta_size (meta e.path)))) := by
  induction walk with
  | nil => rfl
  | cons r rest ih =>
    cases r with
    | error msg =>
      have hrest : ∀ e ∈ matching_entries rest, (meta e.path).isOk = true := by
        intro e he
        exact hmeta e (by simpa [matching_entries] using he)
      simpa [find_zip_files, matching_entries] using ih hrest
    | ok e =>
      by_cases hz : is_zip_entry e
      · have hhead : (meta e.path).isOk = true := by
          apply hmeta
          simp [matching_entries, hz]
        have hrest : ∀ e2 ∈ matching_entries rest, (meta e2.path).isOk = true := by
          intro e2 he2
          apply hmeta
          simp [matching_entries, hz, he2]
        cases hm : meta e.path with
        | error msg => rw [hm] at hhead; simp [Except.isOk, Except.toBool] at hhead
        | ok n =>
          simp [find_zip_files, matching_entries, hz, hm, ih hrest, meta_size]
      · have hrest : ∀ e2 ∈ matching_entries rest, (meta e2.path).isOk = true := by
          intro e2 he2
          apply hmeta
          simp [matching_entries, hz, he2]
        simpa [find_zip_files, matching_entries, hz] using ih hrest

/-- C4 amended witness: a walk with a permission error, one archive, one
non-matching file and one directory: discovery succeeds and returns exactly
the archive. -/
theorem discovery_error_semantics_witness :
    find_zip_files demo_walk (fun _ => Except.ok 3) =
      Except.ok ((matching_entries demo_walk).map
        (fun e => ZipFile.mk e.path (meta_size ((fun _ => Except.ok 3) e.path)))) :=
  discovery_error_semantics demo_walk (fun _ => Except.ok 3) (by decide)

/-- C5: an unreadable or permission-denied entry yielded as an error by the
walker mid-walk is skipped silently: discovery on the walk with the bad
entry equals discovery on the walk without it, for every metadata oracle —
every other matching file is still discovered and the bad entry alone never
makes discovery return an error. -/
theorem bad_entry_skipped (pre post : List (Except String WalkEntry))
    (msg : String) (meta : Path → Except String Nat) :
    find_zip_files (pre ++ Except.error msg :: post) meta =
      find_zip_files (pre ++ post) meta := by
  induction pre with
  | nil => rfl
  | cons r rest ih =>
    cases r with
    | error m =>
      simpa [find_zip_files] using ih
    | ok e =>
      simp only [List.cons_append, find_zip_files, List.append_eq, ih]

/-- C6: with dry_run set, the strip transform performs no filesystem
operation at all — the trace is empty, so there is no directory creation, no
copy and no tag write — and the item still returns a success, for every
environment, item and combination of the other options. -/
theorem dry_run_purity (env : StripEnv) (mp3 : Mp3File) (output_dir : Option Path)
    (keep_fields : Option String) (remove_all : Bool) :
    strip_metadata_file env mp3 output_dir keep_fields remove_all true =
      (Except.ok (), []) := rfl

/-- The skip-existing shortcut of extract_zip_file, shared by the proofs of
the idempotence and failed-open claims. -/
theorem extract_skip_of_exists (env : ExtractEnv) (zip : ZipFile) (out : Path)
    (h : env.dir_exists (extract_target out zip.path) = true) :
    extract_zip_file env zip out true = (Except.ok (), []) := by
  simp [extract_zip_file, h]

/-- C8: if skip_existing is set and the item's target directory (output root
joined with the archive filename stem) already exists, the item succeeds
immediately with an empty trace: the archive is never opened or read and
nothing is written, so a re-run reports the item as a no-op success and
leaves the output untouched. -/
theorem skip_existing_no_io (env : ExtractEnv) (zip : ZipFile) (out : Path)
    (h : env.dir_exists (extract_target out zip.path) = true) :
    extract_zip_file env zip out true = (Except.ok (), []) :=
  extract_skip_of_exists env zip out h

/-- C8 witness: a concrete environment in which every target directory
exists. -/
theorem skip_existing_no_io_witness :
    extract_zip_file all_exists_env (ZipFile.mk ["music.zip"] 7) ["out"] true =
      (Except.ok (), []) :=
  skip_existing_no_io all_exists_env (ZipFile.mk ["music.zip"] 7) ["out"] rfl

/-- C10: the extraction transform creates the target directory before the
archive is opened, so an item whose archive cannot be opened or parsed fails
with the created directory already in its trace; a later run in an
environment where that directory now exists, with skip_existing set, skips
the item as already extracted instead of retrying it. -/
theorem failed_open_marks_extracted (env env2 : ExtractEnv) (zip : ZipFile)
    (out : Path) (se : Bool) (msg : String)
    (h1 : env.dir_exists (extract_target out zip.path) = false)
    (h2 : env.create_dir_ok (extract_target out zip.path) = true)
    (h3 : env.open_archive zip.path = Except.error msg)
    (h4 : env2.dir_exists (extract_target out zip.path) = true) :
    extract_zip_file env zip out se =
      (Except.error msg,
       [FsOp.create_dir (extract_target out zip.path), FsOp.open_archive zip.path]) ∧
    extract_zip_file env2 zip out true = (Except.ok (), []) := by
  constructor
  · simp [extract_zip_file, h1, h2, h3]
  · exact extract_skip_of_exists env2 zip out h4

/-- C10 witness: a corrupted archive against an empty output tree, then a
re-run in an environment where the first run's directory exists. -/
theorem failed_open_marks_extracted_witness :
    extract_zip_file bad_archive_env (ZipFile.mk ["c.zip"] 0) ["out"] false =
      (Except.error "Failed to read zip archive",
       [FsOp.create_dir (extract_target ["out"] ["c.zip"]),
        FsOp.open_archive ["c.zip"]]) ∧
    extract_zip_file rerun_env (ZipFile.mk ["c.zip"] 0) ["out"] true =
      (Except.ok (), []) :=
  failed_open_marks_extracted bad_archive_env rerun_env (ZipFile.mk ["c.zip"] 0)
    ["out"] false "Failed to read zip archive" rfl rfl rfl rfl

/-- C9 counterexample: two distinct archives whose filenames share a stem —
discovery walks subdirectories, so both can be in one catalog — map to the
same extraction directory, so the paths written on behalf of the two items
overlap. -/
theorem output_path_overlap_cex :
    (["a", "foo.zip"] : Path) ≠ ["b", "foo.zip"] ∧
    extract_target ["out"] ["a", "foo.zip"] = extract_target ["out"] ["b", "foo.zip"] := by
  constructor
  · decide
  · rfl

/-- C9 amended: each archive extracts into the directory named by its
filename stem and each audio file maps to the output file named by its
filename, so the written paths of two items are disjoint whenever their
filename stems differ (and, for in-place stripping, whenever the items
themselves differ); distinct items with equal stems, which discovery does
not rule out, map to the same target. -/
theorem output_paths_disjoint (out p q : Path)
    (hstem : file_stem (path_file_name p) ≠ file_stem (path_file_name q)) :
    extract_target out p ≠ extract_target out q ∧
    strip_output_path p (some out) ≠ strip_output_path q (some out) ∧
    (p ≠ q → strip_output_path p none ≠ strip_output_path q none) := by
  have hname : path_file_name p ≠ path_file_name q := by
    intro he
    exact hstem (by rw [he])
  refine ⟨?_, ?_, ?_⟩
  · intro h
    have h2 := congrArg List.reverse h
    simp [extract_target] at h2
    exact hstem h2
  · intro h
    have h2 := congrArg List.reverse h
    simp [strip_output_path] at h2
    exact hname h2
  · intro hpq h
    exact hpq h

/-- C9 amended witness: two archives with distinct stems. -/
theorem output_paths_disjoint_witness :
    extract_target ["out"] ["a.zip"] ≠ extract_target ["out"] ["b.zip"] ∧
    strip_output_path ["a.zip"] (some ["out"]) ≠ strip_output_path ["b.zip"] (some ["out"]) ∧
    ((["a.zip"] : Path) ≠ ["b.zip"] →
      strip_output_path ["a.zip"] none ≠ strip_output_path ["b.zip"] none) :=
  output_paths_disjoint ["out"] ["a.zip"] ["b.zip"] (by decide)

/-! ## Keep-fields lemmas: the effect of one loop step on each tag field -/

theorem keep_field_title (tag acc : Tag) (t : String) :
    (keep_field tag acc t).title =
      if t.trim = "title" ∧ tag.title.isSome then tag.title else acc.title := by
  unfold keep_field
  by_cases h1 : t.trim = "title"
  · rw [if_pos h1]
    cases h : tag.title with
    | none => simp
    | some v => simp [h1, Tag.set_title]
  · rw [if_neg h1]
    have hr : (if t.trim = "title" ∧ tag.title.isSome then tag.title else acc.title)
        = acc.title := by simp [h1]
    rw [hr]
    by_cases h2 : t.trim = "artist"
    · rw [if_pos h2]; cases h : tag.artist <;> rfl
    · rw [if_neg h2]
      by_cases h3 : t.trim = "album"
      · rw [if_pos h3]; cases h : tag.album <;> rfl
      · rw [if_neg h3]
        by_cases h4 : t.trim = "year"
        · rw [if_pos h4]; cases h : tag.year <;> rfl
        · rw [if_neg h4]
          by_cases h5 : t.trim = "track"
          · rw [if_pos h5]; cases h : tag.track <;> rfl
          · rw [if_neg h5]
            by_cases h6 : t.trim = "genre"
            · rw [if_pos h6]; cases h : tag.genre <;> rfl
            · rw [if_neg h6]
              cases h : tag.get t <;> rfl

theorem keep_field_artist (tag acc : Tag) (t : String) :
    (keep_field tag acc t).artist =
      if t.trim = "artist" ∧ tag.artist.isSome then tag.artist else acc.artist := by
  unfold keep_field
  by_cases h1 : t.trim = "title"
  · rw [if_pos h1]
    have hr : (if t.trim = "artist" ∧ tag.artist.isSome then tag.artist else acc.artist)
        = acc.artist := if_neg (fun hc => by rw [h1] at hc; exact absurd hc.1 (by decide))
    rw [hr]
    cases h : tag.title <;> rfl
  · rw [if_neg h1]
    by_cases h2 : t.trim = "artist"
    · rw [if_pos h2]
      cases h : tag.artist with
      | none => simp
      | some v => simp [h2, Tag.set_artist]
    · rw [if_neg h2]
      have hr : (if t.trim = "artist" ∧ tag.artist.isSome then tag.artist else acc.artist)
          = acc.artist := if_neg (fun hc => h2 hc.1)
      rw [hr]
      by_cases h3 : t.trim = "album"
      · rw [if_pos h3]; cases h : tag.album <;> rfl
      · rw [if_neg h3]
        by_cases h4 : t.trim = "year"
        · rw [if_pos h4]; cases h : tag.year <;> rfl
        · rw [if_neg h4]
          by_cases h5 : t.trim = "track"
          · rw [if_pos h5]; cases h : tag.track <;> rfl
          · rw [if_neg h5]
            by_cases h6 : t.trim = "genre"
            · rw [if_pos h6]; cases h : tag.genre <;> rfl
            · rw [if_neg h6]
              cases h : tag.get t <;> rfl

theorem keep_field_album (tag acc : Tag) (t : String) :
    (keep_field tag acc t).album =
      if t.trim = "album" ∧ tag.album.isSome then tag.album else acc.album := by
  unfold keep_field
  by_cases h1 : t.trim = "title"
  · rw [if_pos h1]
    have hr : (if t.trim = "album" ∧ tag.album.isSome then tag.album else acc.album)
        = acc.album := if_neg (fun hc => by rw [h1] at hc; exact absurd hc.1 (by decide))
    rw [hr]
    cases h : tag.title <;> rfl
  · rw [if_neg h1]
    by_cases h2 : t.trim = "artist"
    · rw [if_pos h2]
      have hr : (if t.trim = "album" ∧ tag.album.isSome then tag.album else acc.album)
          = acc.album := if_neg (fun hc => by rw [h2] at hc; exact absurd hc.1 (by decide))
      rw [hr]
      cases h : tag.artist <;> rfl
    · rw [if_neg h2]
      by_cases h3 : t.trim = "album"
      · rw [if_pos h3]
        cases h : tag.album with
        | none => simp
        | some v => simp [h3, Tag.set_album]
      · rw [if_neg h3]
        have hr : (if t.trim = "album" ∧ tag.album.isSome then tag.album else acc.album)
            = acc.album := if_neg (fun hc => h3 hc.1)
        rw [hr]
        by_cases h4 : t.trim = "year"
        · rw [if_pos h4]; cases h : tag.year <;> rfl
        · rw [if_neg h4]
          by_cases h5 : t.trim = "track"
          · rw [if_pos h5]; cases h : tag.track <;> rfl
          · rw [if_neg h5]
            by_cases h6 : t.trim = "genre"
            · rw [if_pos h6]; cases h : tag.genre <;> rfl
            · rw [if_neg h6]
              cases h : tag.get t <;> rfl

theorem keep_field_year (tag acc : Tag) (t : String) :
    (keep_field tag acc t).year =
      if t.trim = "year" ∧ tag.year.isSome then tag.year else acc.year := by
  unfold keep_field
  by_cases h1 : t.trim = "title"
  · rw [if_pos h1]
    have hr : (if t.trim = "year" ∧ tag.year.isSome then tag.year else acc.year)
        = acc.year := if_neg (fun hc => by rw [h1] at hc; exact absurd hc.1 (by decide))
    rw [hr]
    cases h : tag.title <;> rfl
  · rw [if_neg h1]
    by_cases h2 : t.trim = "artist"
    · rw [if_pos h2]
      have hr : (if t.trim = "year" ∧ tag.year.isSome then tag.year else acc.year)
          = acc.year := if_neg (fun hc => by rw [h2] at hc; exact absurd hc.1 (by decide))
      rw [hr]
      cases h : tag.artist <;> rfl
    · rw [if_neg h2]
      by_cases h3 : t.trim = "album"
      · rw [if_pos h3]
        have hr : (if t.trim = "year" ∧ tag.year.isSome then tag.year else acc.year)
            = acc.year := if_neg (fun hc => by rw [h3] at hc; exact absurd hc.1 (by decide))
        rw [hr]
        cases h : tag.album <;> rfl
      · rw [if_neg h3]
        by_cases h4 : t.trim = "year"
        · rw [if_pos h4]
          cases h : tag.year with
          | none => simp
          | some v => simp [h4, Tag.set_year]
        · rw [if_neg h4]
          have hr : (if t.trim = "year" ∧ tag.year.isSome then tag.year else acc.year)
              = acc.year := if_neg (fun hc => h4 hc.1)
          rw [hr]
          by_cases h5 : t.trim = "track"
          · rw [if_pos h5]; cases h : tag.track <;> rfl
          · rw [if_neg h5]
            by_cases h6 : t.trim = "genre"
            · rw [if_pos h6]; cases h : tag.genre <;> rfl
            · rw [if_neg h6]
              cases h : tag.get t <;> rfl

theorem keep_field_track (tag acc : Tag) (t : String) :
    (keep_field tag acc t).track =
      if t.trim = "track" ∧ tag.track.isSome then tag.track else acc.track := by
  unfold keep_field
  by_cases h1 : t.trim = "title"
  · rw [if_pos h1]
    have hr : (if t.trim = "track" ∧ tag.track.isSome then tag.track else acc.track)
        = acc.track := if_neg (fun hc => by rw [h1] at hc; exact absurd hc.1 (by decide))
    rw [hr]
    cases h : tag.title <;> rfl
  · rw [if_neg h1]
    by_cases h2 : t.trim = "artist"
    · rw [if_pos h2]
      have hr : (if t.trim = "track" ∧ tag.track.isSome then tag.track else acc.track)
          = acc.track := if_neg (fun hc => by rw [h2] at hc; exact absurd hc.1 (by decide))
      rw [hr]
      cases h : tag.artist <;> rfl
    · rw [if_neg h2]
      by_cases h3 : t.trim = "album"
      · rw [if_pos h3]
        have hr : (if t.trim = "track" ∧ tag.track.isSome then tag.track else acc.track)
            = acc.track := if_neg (fun hc => by rw [h3] at hc; exact absurd hc.1 (by decide))
        rw [hr]
        cases h : tag.album <;> rfl
      · rw [if_neg h3]
        by_cases h4 : t.trim = "year"
        · rw [if_pos h4]
          have hr : (if t.trim = "track" ∧ tag.track.isSome then tag.track else acc.track)
              = acc.track := if_neg (fun hc => by rw [h4] at hc; exact absurd hc.1 (by decide))
          rw [hr]
          cases h : tag.year <;> rfl
        · rw [if_neg h4]
          by_cases h5 : t.trim = "track"
          · rw [if_pos h5]
            cases h : tag.track with
            | none => simp
            | some v => simp [h5, Tag.set_track]
          · rw [if_neg h5]
            have hr : (if t.trim = "track" ∧ tag.track.isSome then tag.track else acc.track)
                = acc.track := if_neg (fun hc => h5 hc.1)
            rw [hr]
            by_cases h6 : t.trim = "genre"
            · rw [if_pos h6]; cases h : tag.genre <;> rfl
            · rw [if_neg h6]
              cases h : tag.get t <;> rfl

theorem keep_field_genre (tag acc : Tag) (t : String) :
    (keep_field tag acc t).genre =
      if t.trim = "genre" ∧ tag.genre.isSome then tag.genre else acc.genre := by
  unfold keep_field
  by_cases h1 : t.trim = "title"
  · rw [if_pos h1]
    have hr : (if t.trim = "genre" ∧ tag.genre.isSome then tag.genre else acc.genre)
        = acc.genre := if_neg (fun hc => by rw [h1] at hc; exact absurd hc.1 (by decide))
    rw [hr]
    cases h : tag.title <;> rfl
  · rw [if_neg h1]
    by_cases h2 : t.trim = "artist"
    · rw [if_pos h2]
      have hr : (if t.trim = "genre" ∧ tag.genre.isSome then tag.genre else acc.genre)
          = acc.genre := if_neg (fun hc => by rw [h2] at hc; exact absurd hc.1 (by decide))
      rw [hr]
      cases h : tag.artist <;> rfl
    · rw [if_neg h2]
      by_cases h3 : t.trim = "album"
      · rw [if_pos h3]
        have hr : (if t.trim = "genre" ∧ tag.genre.isSome then tag.genre else acc.genre)
            = acc.genre := if_neg (fun hc => by rw [h3] at hc; exact absurd hc.1 (by decide))
        rw [hr]
        cases h : tag.album <;> rfl
      · rw [if_neg h3]
        by_cases h4 : t.trim = "year"
        · rw [if_pos h4]
          have hr : (if t.trim = "genre" ∧ tag.genre.isSome then tag.genre else acc.genre)
              = acc.genre := if_neg (fun hc => by rw [h4] at hc; exact absurd hc.1 (by decide))
          rw [hr]
          cases h : tag.year <;> rfl
        · rw [if_neg h4]
          by_cases h5 : t.trim = "track"
          · rw [if_pos h5]
            have hr : (if t.trim = "genre" ∧ tag.genre.isSome then tag.genre else acc.genre)
                = acc.genre := if_neg (fun hc => by rw [h5] at hc; exact absurd hc.1 (by decide))
            rw [hr]
            cases h : tag.track <;> rfl
          · rw [if_neg h5]
            by_cases h6 : t.trim = "genre"
            · rw [if_pos h6]
              cases h : tag.genre with
              | none => simp
              | some v => simp [h6, Tag.set_genre]
            · rw [if_neg h6]
              have hr : (if t.trim = "genre" ∧ tag.genre.isSome then tag.genre else acc.genre)
                  = acc.genre := if_neg (fun hc => h6 hc.1)
              rw [hr]
              cases h : tag.get t <;> rfl

theorem keep_foldl_title (tag : Tag) (toks : List String) :
    ∀ acc : Tag, (toks.foldl (keep_field tag) acc).title =
      if (∃ t ∈ toks, t.trim = "title") ∧ tag.title.isSome then tag.title
      else acc.title := by
  induction toks with
  | nil => intro acc; simp
  | cons t ts ih =>
    intro acc
    rw [List.foldl_cons, ih, keep_field_title]
    by_cases hs : tag.title.isSome
    · by_cases hm : ∃ u ∈ ts, u.trim = "title"
      · simp [hs, hm, List.exists_mem_cons_iff]
      · by_cases ht : t.trim = "title"
        · simp [hs, hm, ht, List.exists_mem_cons_iff]
        · simp [hs, hm, ht, List.exists_mem_cons_iff]
    · simp [hs]

theorem keep_foldl_artist (tag : Tag) (toks : List String) :
    ∀ acc : Tag, (toks.foldl (keep_field tag) acc).artist =
      if (∃ t ∈ toks, t.trim = "artist") ∧ tag.artist.isSome then tag.artist
      else acc.artist := by
  induction toks with
  | nil => intro acc; simp
  | cons t ts ih =>
    intro acc
    rw [List.foldl_cons, ih, keep_field_artist]
    by_cases hs : tag.artist.isSome
    · by_cases hm : ∃ u ∈ ts, u.trim = "artist"
      · simp [hs, hm, List.exists_mem_cons_iff]
      · by_cases ht : t.trim = "artist"
        · simp [hs, hm, ht, List.exists_mem_cons_iff]
        · simp [hs, hm, ht, List.exists_mem_cons_iff]
    · simp [hs]

theorem keep_foldl_album (tag : Tag) (toks : List String) :
    ∀ acc : Tag, (toks.foldl (keep_field tag) acc).album =
      if (∃ t ∈ toks, t.trim = "album") ∧ tag.album.isSome then tag.album
      else acc.album := by
  induction toks with
  | nil => intro acc; simp
  | cons t ts ih =>
    intro acc
    rw [List.foldl_cons, ih, keep_field_album]
    by_cases hs : tag.album.isSome
    · by_cases hm : ∃ u ∈ ts, u.trim = "album"
      · simp [hs, hm, List.exists_mem_cons_iff]
      · by_cases ht : t.trim = "album"
        · simp [hs, hm, ht, List.exists_mem_cons_iff]
        · simp [hs, hm, ht, List.exists_mem_cons_iff]
    · simp [hs]

theorem keep_foldl_year (tag : Tag) (toks : List String) :
    ∀ acc : Tag, (toks.foldl (keep_field tag) acc).year =
      if (∃ t ∈ toks, t.trim = "year") ∧ tag.year.isSome then tag.year
      else acc.year := by
  induction toks with
  | nil => intro acc; simp
  | cons t ts ih =>
    intro acc
    rw [List.foldl_cons, ih, keep_field_year]
    by_cases hs : tag.year.isSome
    · by_cases hm : ∃ u ∈ ts, u.trim = "year"
      · simp [hs, hm, List.exists_mem_cons_iff]
      · by_cases ht : t.trim = "year"
        · simp [hs, hm, ht, List.exists_mem_cons_iff]
        · simp [hs, hm, ht, List.exists_mem_cons_iff]
    · simp [hs]

theorem keep_foldl_track (tag : Tag) (toks : List String) :
    ∀ acc : Tag, (toks.foldl (keep_field tag) acc).track =
      if (∃ t ∈ toks, t.trim = "track") ∧ tag.track.isSome then tag.track
      else acc.track := by
  induction toks with
  | nil => intro acc; simp
  | cons t ts ih =>
    intro acc
    rw [List.foldl_cons, ih, keep_field_track]
    by_cases hs : tag.track.isSome
    · by_cases hm : ∃ u ∈ ts, u.trim = "track"
      · simp [hs, hm, List.exists_mem_cons_iff]
      · by_cases ht : t.trim = "track"
        · simp [hs, hm, ht, List.exists_mem_cons_iff]
        · simp [hs, hm, ht, List.exists_mem_cons_iff]
    · simp [hs]

theorem keep_foldl_genre (tag : Tag) (toks : List String) :
    ∀ acc : Tag, (toks.foldl (keep_field tag) acc).genre =
      if (∃ t ∈ toks, t.trim = "genre") ∧ tag.genre.isSome then tag.genre
      else acc.genre := by
  induction toks with
  | nil => intro acc; simp
  | cons t ts ih =>
    intro acc
    rw [List.foldl_cons, ih, keep_field_genre]
    by_cases hs : tag.genre.isSome
    · by_cases hm : ∃ u ∈ ts, u.trim = "genre"
      · simp [hs, hm, List.exists_mem_cons_iff]
      · by_cases ht : t.trim = "genre"
        · simp [hs, hm, ht, List.exists_mem_cons_iff]
        · simp [hs, hm, ht, List.exists_mem_cons_iff]
    · simp [hs]

theorem keep_field_get (tag acc : Tag) (t k : String) :
    (keep_field tag acc t).get k =
      if k = t ∧ t.trim ∉ first_class_fields ∧ (tag.get t).isSome
      then tag.get t else acc.get k := by
  unfold keep_field
  by_cases h1 : t.trim = "title"
  · rw [if_pos h1]
    have hr : (if k = t ∧ t.trim ∉ first_class_fields ∧ (tag.get t).isSome
        then tag.get t else acc.get k) = acc.get k :=
      if_neg (fun hc => hc.2.1 (by rw [h1]; simp [first_class_fields]))
    rw [hr]
    cases h : tag.title <;> rfl
  · rw [if_neg h1]
    by_cases h2 : t.trim = "artist"
    · rw [if_pos h2]
      have hr : (if k = t ∧ t.trim ∉ first_class_fields ∧ (tag.get t).isSome
          then tag.get t else acc.get k) = acc.get k :=
        if_neg (fun hc => hc.2.1 (by rw [h2]; simp [first_class_fields]))
      rw [hr]
      cases h : tag.artist <;> rfl
    · rw [if_neg h2]
      by_cases h3 : t.trim = "album"
      · rw [if_pos h3]
        have hr : (if k = t ∧ t.trim ∉ first_class_fields ∧ (tag.get t).isSome
            then tag.get t else acc.get k) = acc.get k :=
          if_neg (fun hc => hc.2.1 (by rw [h3]; simp [first_class_fields]))
        rw [hr]
        cases h : tag.album <;> rfl
      · rw [if_neg h3]
        by_cases h4 : t.trim = "year"
        · rw [if_pos h4]
          have hr : (if k = t ∧ t.trim ∉ first_class_fields ∧ (tag.get t).isSome
              then tag.get t else acc.get k) = acc.get k :=
            if_neg (fun hc => hc.2.1 (by rw [h4]; simp [first_class_fields]))
          rw [hr]
          cases h : tag.year <;> rfl
        · rw [if_neg h4]
          by_cases h5 : t.trim = "track"
          · rw [if_pos h5]
            have hr : (if k = t ∧ t.trim ∉ first_class_fields ∧ (tag.get t).isSome
                then tag.get t else acc.get k) = acc.get k :=
              if_neg (fun hc => hc.2.1 (by rw [h5]; simp [first_class_fields]))
            rw [hr]
            cases h : tag.track <;> rfl
          · rw [if_neg h5]
            by_cases h6 : t.trim = "genre"
            · rw [if_pos h6]
              have hr : (if k = t ∧ t.trim ∉ first_class_fields ∧ (tag.get t).isSome
                  then tag.get t else acc.get k) = acc.get k :=
                if_neg (fun hc => hc.2.1 (by rw [h6]; simp [first_class_fields]))
              rw [hr]
              cases h : tag.genre <;> rfl
            · rw [if_neg h6]
              have hfc : t.trim ∉ first_class_fields := by
                simp [first_class_fields, h1, h2, h3, h4, h5, h6]
              cases h : tag.get t with
              | none =>
                rw [if_neg (fun hc => by simp at hc)]
              | some v =>
                by_cases hk : k = t
                · subst hk
                  rw [if_pos ⟨rfl, hfc, rfl⟩]
                  simp [Tag.get, Tag.add_frame, frames_lookup]
                · rw [if_neg (fun hc => hk hc.1)]
                  simp [Tag.get, Tag.add_frame, frames_lookup, hk]

theorem keep_foldl_get (tag : Tag) (toks : List String) :
    ∀ (acc : Tag) (k : String), (toks.foldl (keep_field tag) acc).get k =
      if k ∈ toks ∧ k.trim ∉ first_class_fields ∧ (tag.get k).isSome
      then tag.get k else acc.get k := by
  induction toks with
  | nil => intro acc k; simp
  | cons t ts ih =>
    intro acc k
    rw [List.foldl_cons, ih, keep_field_get]
    by_cases hrest : k ∈ ts ∧ k.trim ∉ first_class_fields ∧ (tag.get k).isSome
    · rw [if_pos hrest,
        if_pos ⟨List.mem_cons_of_mem t hrest.1, hrest.2.1, hrest.2.2⟩]
    · rw [if_neg hrest]
      by_cases hk : k = t
      · subst hk
        by_cases hc : k.trim ∉ first_class_fields ∧ (tag.get k).isSome
        · rw [if_pos ⟨rfl, hc.1, hc.2⟩,
            if_pos ⟨List.mem_cons_self k ts, hc.1, hc.2⟩]
        · rw [if_neg (fun hy => hc ⟨hy.2.1, hy.2.2⟩),
            if_neg (fun hy => hc ⟨hy.2.1, hy.2.2⟩)]
      · rw [if_neg (fun hy => hk hy.1),
          if_neg (fun hy =>
            hrest ⟨(List.mem_cons.mp hy.1).resolve_left hk, hy.2.1, hy.2.2⟩)]

/-- C7: for every source tag and comma-separated keep list, the tag the
keep-fields branch writes contains exactly the named fields present in the
source: each of the six first-class fields survives precisely when its name
appears (trimmed) in the list and is present in the source, any other listed
name is looked up as a custom frame by exact key match and copied verbatim
when found, and every field not named is dropped; unrecognized or absent
names are silently omitted and the construction is total, never an error. -/
theorem keep_fields_filtering (tag : Tag) (fields_to_keep : String) :
    ((build_kept_tag tag fields_to_keep).title =
      if ∃ t ∈ fields_to_keep.splitOn ",", t.trim = "title" then tag.title else none) ∧
    ((build_kept_tag tag fields_to_keep).artist =
      if ∃ t ∈ fields_to_keep.splitOn ",", t.trim = "artist" then tag.artist else none) ∧
    ((build_kept_tag tag fields_to_keep).album =
      if ∃ t ∈ fields_to_keep.splitOn ",", t.trim = "album" then tag.album else none) ∧
    ((build_kept_tag tag fields_to_keep).year =
      if ∃ t ∈ fields_to_keep.splitOn ",", t.trim = "year" then tag.year else none) ∧
    ((build_kept_tag tag fields_to_keep).track =
      if ∃ t ∈ fields_to_keep.splitOn ",", t.trim = "track" then tag.track else none) ∧
    ((build_kept_tag tag fields_to_keep).genre =
      if ∃ t ∈ fields_to_keep.splitOn ",", t.trim = "genre" then tag.genre else none) ∧
    (∀ k, (build_kept_tag tag fields_to_keep).get k =
      if k ∈ fields_to_keep.splitOn "," ∧ k.trim ∉ first_class_fields
      then tag.get k else none) := by
  unfold build_kept_tag
  refine ⟨?_, ?_, ?_, ?_, ?_, ?_, ?_⟩
  · rw [keep_foldl_title]
    cases h : tag.title <;> simp [Tag.new]
  · rw [keep_foldl_artist]
    cases h : tag.artist <;> simp [Tag.new]
  · rw [keep_foldl_album]
    cases h : tag.album <;> simp [Tag.new]
  · rw [keep_foldl_year]
    cases h : tag.year <;> simp [Tag.new]
  · rw [keep_foldl_track]
    cases h : tag.track <;> simp [Tag.new]
  · rw [keep_foldl_genre]
    cases h : tag.genre <;> simp [Tag.new]
  · intro k
    rw [keep_foldl_get]
    cases h : tag.get k <;> simp [Tag.new, Tag.get, frames_lookup]

end BulkUnzip
